import Mathlib

/-!
Verification of the mcp-mistral-codestral API client (`src/mistral.ts`,
`src/index.ts`) against its natural-language specification.

Text is embedded as `List Char` (the character sequence of a JS string).
Numbers that the JS code treats as IEEE doubles only ever take small exact
values here (temperatures, token counts, timestamps), embedded as `ℚ`, `ℕ`
or `ℤ` as appropriate.
-/

namespace Codestral

/-- Character-list form of a string literal. -/
def str (s : String) : List Char := s.data

/-- The backtick character, written by code point. -/
def btick : Char := '\x60'

/-- JS `\w` character class: ASCII alphanumeric or underscore. -/
def isWordChar (c : Char) : Bool := c.isAlphanum || c = '_'

/-- Whitespace recognised by the embedded `trim` (the characters the
source's `.trim()` removes that can actually occur in its inputs). -/
def isWS (c : Char) : Bool := c = ' ' || c = '\t' || c = '\n' || c = '\r'

/-- JS `String.prototype.trim`: drop leading and trailing whitespace. -/
def trim (s : List Char) : List Char :=
  ((s.dropWhile isWS).reverse.dropWhile isWS).reverse

/-!
Embedding of the global regex from `formatResponse` (index.ts line 61):

  triple backtick, then `[\w]*`, then a newline, then a lazy capture
  `([\s\S]*?)` up to the next triple backtick; `matchAll` scans left to
  right, advancing one character when no match starts at the current
  position and past the whole match when one does.
-/

/-- Whether a text begins with a triple backtick. -/
def startsWithFence : List Char → Bool
  | a :: b :: c :: _ => a = btick && b = btick && c = btick
  | _ => false

/-- Find the earliest closing triple backtick: returns the characters
before it and the characters after it (lazy `([\s\S]*?)` then a literal
close fence). -/
def splitAtClose : List Char → Option (List Char × List Char)
  | [] => none
  | a :: t =>
    if startsWithFence (a :: t) then some ([], (a :: t).drop 3)
    else
      match splitAtClose t with
      | some (co, r) => some (a :: co, r)
      | none => none

/-- After an opening fence, consume the `[\w]*` language tag and require a
newline; returns the characters after the newline. -/
def dropFenceTag : List Char → Option (List Char)
  | [] => none
  | c :: cs =>
    if c = '\n' then some cs
    else if isWordChar c then dropFenceTag cs
    else none

/-- Attempt a regex match starting exactly at the head of the list:
opening triple backtick, tag, newline, lazy content, closing triple
backtick. Returns (captured content, rest after the whole match). -/
def tryOpenAt (s : List Char) : Option (List Char × List Char) :=
  if startsWithFence s then
    match dropFenceTag (s.drop 3) with
    | some afterNl => splitAtClose afterNl
    | none => none
  else none

/-- Fuelled left-to-right scan collecting every match of the code-block
regex, as `matchAll` does. -/
def scanBlocksF : Nat → List Char → List (List Char)
  | 0, _ => []
  | _ + 1, [] => []
  | n + 1, c :: cs =>
    match tryOpenAt (c :: cs) with
    | some (co, rest) => co :: scanBlocksF n rest
    | none => scanBlocksF n cs

/-- All captured code-block contents of a text, in order of first
appearance. -/
def scanBlocks (s : List Char) : List (List Char) := scanBlocksF s.length s

/-- Join with a blank line, as `.join('\n\n')`. -/
def joinBlankLine : List (List Char) → List Char
  | [] => []
  | [x] => x
  | x :: y :: t => x ++ '\n' :: '\n' :: joinBlankLine (y :: t)

/-- The code-extraction step of `formatResponse` (index.ts lines 60-68):
if the regex matches at least once, return the trimmed captures joined by
a blank line; otherwise return the content unchanged. -/
def extractCode (content : List Char) : List Char :=
  match scanBlocks content with
  | [] => content
  | ms => joinBlankLine (ms.map trim)

/-!
Data model of `src/mistral.ts`.
-/

/-- mistral.ts line 4. -/
def MISTRAL_API_BASE : List Char := str "https://api.mistral.ai/v1"

/-- mistral.ts lines 6-9: the two model identifiers; `CODESTRAL` is the
primary (non-mamba) one. -/
def MISTRAL_MODELS_CODESTRAL : List Char := str "codestral-latest"

/-- mistral.ts lines 6-9: the mamba variant. -/
def MISTRAL_MODELS_CODESTRAL_MAMBA : List Char := str "codestral-mamba-latest"

/-- JSON values, the shape of a raw HTTP response body. -/
inductive Json where
  | null : Json
  | bool (b : Bool) : Json
  | num (n : ℚ) : Json
  | jstr (s : List Char) : Json
  | arr (elems : List Json) : Json
  | obj (fields : List (List Char × Json)) : Json

/-- Look up a field of a JSON object (a JS property access; absent keys
read as `undefined`, here `none`). -/
def Json.getField (fields : List (List Char × Json)) (name : List Char) :
    Option Json :=
  (fields.find? (fun p => p.1 = name)).map (fun p => p.2)

/-- z.string(): accept exactly a string value. -/
def Json.asStr : Json → Option (List Char)
  | .jstr s => some s
  | _ => none

/-- z.number(): accept exactly a number value. -/
def Json.asNum : Json → Option ℚ
  | .num n => some n
  | _ => none

/-- Message shape inside a choice (mistral.ts lines 21-24). -/
structure ChoiceMessage where
  role : List Char
  content : List Char
deriving DecidableEq

/-- One element of `choices` (mistral.ts lines 19-26). -/
structure Choice where
  index : ℚ
  message : ChoiceMessage
  finish_reason : Option (List Char)
deriving DecidableEq

/-- The `usage` object (mistral.ts lines 27-31). -/
structure Usage where
  prompt_tokens : ℚ
  completion_tokens : ℚ
  total_tokens : ℚ
deriving DecidableEq

/-- The validated completion response (mistral.ts lines 14-32). -/
structure CompletionResponse where
  id : List Char
  object : List Char
  created : ℚ
  model : List Char
  choices : List Choice
  usage : Usage
deriving DecidableEq

/-- Parse the `message` object of a choice as zod does: the value must be
an object and each declared field must validate. -/
def parseChoiceMessage : Json → Option ChoiceMessage
  | .obj fs => do
    let role ← Json.getField fs (str "role") >>= Json.asStr
    let content ← Json.getField fs (str "content") >>= Json.asStr
    pure ⟨role, content⟩
  | _ => none

/-- Parse one element of `choices`; `finish_reason` is optional (absent is
fine, present must be a string). -/
def parseChoice : Json → Option Choice
  | .obj fs => do
    let index ← Json.getField fs (str "index") >>= Json.asNum
    let message ← Json.getField fs (str "message") >>= parseChoiceMessage
    let fr ←
      match Json.getField fs (str "finish_reason") with
      | none => some none
      | some v => (Json.asStr v).map some
    pure ⟨index, message, fr⟩
  | _ => none

/-- Parse the `usage` object. -/
def parseUsage : Json → Option Usage
  | .obj fs => do
    let p ← Json.getField fs (str "prompt_tokens") >>= Json.asNum
    let c ← Json.getField fs (str "completion_tokens") >>= Json.asNum
    let t ← Json.getField fs (str "total_tokens") >>= Json.asNum
    pure ⟨p, c, t⟩
  | _ => none

/-- CompletionResponseSchema.parse (mistral.ts lines 14-32): the whole-body
validator. `choices` is `z.array(...)` with no nonempty refinement, so it
accepts any list, including the empty one; a missing required field or a
wrongly typed field makes the whole parse fail (`none`), never a partial
value. -/
def CompletionResponseSchema : Json → Option CompletionResponse
  | .obj fs => do
    let id ← Json.getField fs (str "id") >>= Json.asStr
    let ob ← Json.getField fs (str "object") >>= Json.asStr
    let created ← Json.getField fs (str "created") >>= Json.asNum
    let model ← Json.getField fs (str "model") >>= Json.asStr
    let choicesJson ←
      match Json.getField fs (str "choices") with
      | some (.arr xs) => some xs
      | _ => none
    let choices ← choicesJson.mapM parseChoice
    let usage ← Json.getField fs (str "usage") >>= parseUsage
    pure ⟨id, ob, created, model, choices, usage⟩
  | _ => none

/-!
Error taxonomy and HTTP-status classification.
-/

/-- The client's error taxonomy; each constructor corresponds to one of
the thrown `Error`s of mistral.ts (constructor line 42, catch blocks lines
104-113 and 177-186, and a failed schema parse at lines 97 / 156). -/
inductive DomainError where
  | configError : DomainError
  | authError : DomainError
  | rateLimitError : DomainError
  | serverError : DomainError
  | unclassified (status : Option ℕ) (message : List Char) : DomainError
  | schemaError : DomainError
deriving DecidableEq

/-- JS `a || b` over the remote error message: the remote-supplied message
when present and non-empty (a present empty string is falsy and falls
through), else the transport's own message (mistral.ts lines 102 / 175). -/
def coalesceMsg (remoteMsg : Option (List Char)) (transportMsg : List Char) :
    List Char :=
  match remoteMsg with
  | some m => if m = [] then transportMsg else m
  | none => transportMsg

/-- The switch on `error.response?.status` in chatCompletion's catch block
(mistral.ts lines 104-113): 401, 429 and exactly 500 have dedicated cases;
every other status (including other 5xx and an absent status) falls to the
default, an unclassified API error carrying the status and the coalesced
message. -/
def classifyChatError (status : Option ℕ) (remoteMsg : Option (List Char))
    (transportMsg : List Char) : DomainError :=
  if status = some 401 then .authError
  else if status = some 429 then .rateLimitError
  else if status = some 500 then .serverError
  else .unclassified status (coalesceMsg remoteMsg transportMsg)

/-- The switch in fimCompletion's catch block (mistral.ts lines 177-186):
same cases, but the default message additionally appends a dump of the
response data. `dataDump` stands for `JSON.stringify(error.response?.data)`. -/
def classifyFimError (status : Option ℕ) (remoteMsg : Option (List Char))
    (transportMsg : List Char) (dataDump : List Char) : DomainError :=
  if status = some 401 then .authError
  else if status = some 429 then .rateLimitError
  else if status = some 500 then .serverError
  else
    .unclassified status
      (coalesceMsg remoteMsg transportMsg ++ str "\nResponse: " ++ dataDump)

/-- Outcome of the underlying HTTP POST, as seen by the try/catch: either
a 2xx response with a JSON body, or an AxiosError with an optional status,
an optional remote `data.error.message`, the transport's own message, and
the raw data dump. -/
inductive TransportResult where
  | success (body : Json) : TransportResult
  | httpError (status : Option ℕ) (remoteMsg : Option (List Char))
      (transportMsg : List Char) (dataDump : List Char) : TransportResult

/-- chatCompletion's result as a function of the transport outcome
(mistral.ts lines 87-116): on success the body is parsed against
CompletionResponseSchema — a failed parse throws the (non-Axios) ZodError,
which the catch rethrows unchanged, surfacing as a schema error; on an
AxiosError the status switch classifies. -/
def chatCompletionResult (t : TransportResult) :
    Except DomainError CompletionResponse :=
  match t with
  | .success body =>
    match CompletionResponseSchema body with
    | some r => .ok r
    | none => .error .schemaError
  | .httpError st rm tm _ => .error (classifyChatError st rm tm)

/-- fimCompletion's result as a function of the transport outcome
(mistral.ts lines 130-189): identical validation, fim classification. -/
def fimCompletionResult (t : TransportResult) :
    Except DomainError CompletionResponse :=
  match t with
  | .success body =>
    match CompletionResponseSchema body with
    | some r => .ok r
    | none => .error .schemaError
  | .httpError st rm tm dump => .error (classifyFimError st rm tm dump)

/-- formatResponse (index.ts lines 53-69): reject a response with zero
choices, else extract code blocks from the first choice's content. -/
def formatResponse (c : CompletionResponse) : Except (List Char) (List Char) :=
  match c.choices with
  | [] => .error (str "Invalid completion response")
  | ch :: _ => .ok (extractCode ch.message.content)

/-!
Prompt builder (mistral.ts lines 193-224).
-/

/-- The four task kinds accepted by createPrompt. -/
inductive Task where
  | complete : Task
  | fix : Task
  | test : Task
  | fim : Task
deriving DecidableEq

/-- A role-tagged message. -/
structure Message where
  role : List Char
  content : List Char
deriving DecidableEq

/-- The fixed per-task system prompts (mistral.ts lines 201-206). -/
def systemPrompt : Task → List Char
  | .complete =>
    str "You are an expert programmer. Continue or complete the provided code according to best practices."
  | .fix =>
    str "You are an expert programmer. Analyze the code for bugs and provide a corrected version with explanations of the fixes."
  | .test =>
    str "You are an expert programmer. Generate comprehensive unit tests for the provided code using appropriate testing frameworks."
  | .fim =>
    str "You are an expert programmer. Complete the code between the given start and end sections, ensuring it flows naturally."

/-- mistral.ts line 199, the JS conditional on the truthiness of
`language`: a space plus the language when present and non-empty, else
nothing. -/
def langStr (language : Option (List Char)) : List Char :=
  match language with
  | some l => if l = [] then [] else ' ' :: l
  | none => []

/-- The fence tag `language || ''` (mistral.ts lines 208 / 211): the
language when present (an empty string coalesces to the same empty
string), else empty — never a null-stringified value. -/
def fenceTag (language : Option (List Char)) : List Char :=
  match language with
  | some l => if l = [] then [] else l
  | none => []

/-- The user-message content (mistral.ts lines 208-212): one fenced block
around the code, and for a fim task with a truthy (present, non-empty)
suffix a second fenced block introduced by connective text. -/
def userContent (code : List Char) (language : Option (List Char))
    (task : Task) (suffix : Option (List Char)) : List Char :=
  let base :=
    str "Here is the" ++ langStr language ++ str " code:\n\n```" ++
      fenceTag language ++ '\n' :: code ++ str "\n```"
  match task, suffix with
  | .fim, some s =>
    if s = [] then base
    else
      base ++ str "\n\nThe code should end with:\n\n```" ++
        fenceTag language ++ '\n' :: s ++ str "\n```"
  | _, _ => base

/-- createPrompt (mistral.ts lines 193-224): a two-element message list,
system persona first, user content second. -/
def createPrompt (code : List Char) (language : Option (List Char))
    (task : Task) (suffix : Option (List Char)) : List Message :=
  [⟨str "system", systemPrompt task⟩,
   ⟨str "user", userContent code language task suffix⟩]

/-!
Client construction (mistral.ts lines 40-54) and the module-level
singleton accessor (lines 245-252).
-/

/-- The state a constructed client holds: the trimmed key, the transport
configuration passed to `axios.create`, and the pacing timestamp field
(initialised to 0, an epoch before any real request). -/
structure MistralAPIInstance where
  apiKey : List Char
  baseURL : List Char
  authHeader : List Char
  contentTypeHeader : List Char
  acceptHeader : List Char
  timeout : ℕ
  lastRequestTime : ℤ
deriving DecidableEq

/-- The constructor (mistral.ts lines 40-54): `!apiKey ||
apiKey.trim().length === 0` throws the config error; otherwise the
trimmed key is stored and the transport is configured with the base URL,
a bearer header derived from the trimmed key, JSON content-type/accept
headers and a 30000 ms timeout. -/
def newMistralAPI (apiKey : List Char) : Except DomainError MistralAPIInstance :=
  if apiKey = [] ∨ trim apiKey = [] then .error .configError
  else
    .ok
      { apiKey := trim apiKey
        baseURL := MISTRAL_API_BASE
        authHeader := str "Bearer " ++ trim apiKey
        contentTypeHeader := str "application/json"
        acceptHeader := str "application/json"
        timeout := 30000
        lastRequestTime := 0 }

/-- getMistralAPI (mistral.ts lines 245-252) as a state transformer on the
module-level `instance` variable: when an instance already exists it is
returned untouched (the argument is never read); otherwise the
constructor runs, and only a successful construction fills the slot. -/
def getMistralAPI (inst : Option MistralAPIInstance) (apiKey : List Char) :
    Except DomainError MistralAPIInstance × Option MistralAPIInstance :=
  match inst with
  | some i => (.ok i, some i)
  | none =>
    match newMistralAPI apiKey with
    | .ok i => (.ok i, some i)
    | .error e => (.error e, none)

/-- A sequence of getMistralAPI calls threading the module-level slot,
returning each call's result. -/
def getMistralAPIRun (inst : Option MistralAPIInstance) :
    List (List Char) → List (Except DomainError MistralAPIInstance)
  | [] => []
  | k :: ks =>
    let r := getMistralAPI inst k
    r.1 :: getMistralAPIRun r.2 ks

/-!
Request payloads (mistral.ts lines 88-95 and 136-144).
-/

/-- Options accepted by fimCompletion (mistral.ts lines 122-128). The
declared option keys are suffix, temperature, top_p, max_tokens, stop; a
`model` entry stands for an extra property a caller might pass, which the
implementation never reads. -/
structure FimOptions where
  model : Option (List Char) := none
  suffix : Option (List Char) := none
  temperature : Option ℚ := none
  top_p : Option ℚ := none
  max_tokens : Option ℕ := none
  stop : Option (List (List Char)) := none

/-- The JSON body POSTed to `/fim/completions` (mistral.ts lines 136-144). -/
structure FimRequestBody where
  model : List Char
  prompt : List Char
  suffix : Option (List Char)
  temperature : ℚ
  top_p : ℚ
  max_tokens : ℕ
  stop : Option (List (List Char))
deriving DecidableEq

/-- The fim request body builder (mistral.ts lines 136-144): the model
field is the literal `MISTRAL_MODELS.CODESTRAL`, never read from the
options; temperature defaults to 0 via `??`, top_p to 1, max_tokens to
1000. -/
def fimRequestBody (prompt : List Char) (opts : FimOptions) : FimRequestBody :=
  { model := MISTRAL_MODELS_CODESTRAL
    prompt := prompt
    suffix := opts.suffix
    temperature := opts.temperature.getD 0
    top_p := opts.top_p.getD 1
    max_tokens := opts.max_tokens.getD 1000
    stop := opts.stop }

/-- Options accepted by chatCompletion (mistral.ts lines 79-85). -/
structure ChatOptions where
  model : Option (List Char) := none
  temperature : Option ℚ := none
  top_p : Option ℚ := none
  max_tokens : Option ℕ := none
  stop : Option (List (List Char)) := none

/-- The JSON body POSTed to `/chat/completions` (mistral.ts lines 88-95). -/
structure ChatRequestBody where
  model : List Char
  messages : List Message
  temperature : ℚ
  top_p : ℚ
  max_tokens : ℕ
  stop : Option (List (List Char))
deriving DecidableEq

/-- The chat request body builder (mistral.ts lines 88-95): model defaults
to the primary identifier via `||` (the option type only admits the two
model identifiers, both non-empty strings, so `||` behaves as `getD`);
temperature defaults to 0.7 via `??`. -/
def chatRequestBody (messages : List Message) (opts : ChatOptions) :
    ChatRequestBody :=
  { model := opts.model.getD MISTRAL_MODELS_CODESTRAL
    messages := messages
    temperature := opts.temperature.getD (7 / 10)
    top_p := opts.top_p.getD 1
    max_tokens := opts.max_tokens.getD 1000
    stop := opts.stop }

/-!
Pacing (mistral.ts lines 227-241).
-/

/-- `minRequestInterval` (mistral.ts line 228). -/
def minRequestInterval : ℤ := 100

/-- enforceRateLimit (mistral.ts lines 230-241), as a function of the
stored `lastRequestTime` and the wall-clock time `now` at entry: when
less than the minimum interval has elapsed it sleeps for the remainder
and then stamps `lastRequestTime` with the post-sleep clock; returns
(time at which the caller resumes, new lastRequestTime). -/
def enforceRateLimit (lastRequestTime now : ℤ) : ℤ × ℤ :=
  let timeSinceLastRequest := now - lastRequestTime
  if timeSinceLastRequest < minRequestInterval then
    let resume := now + (minRequestInterval - timeSinceLastRequest)
    (resume, resume)
  else (now, now)

/-- The observable start of a chatCompletion (or fimCompletion) network
request as a function of the pacing state and the wall clock: the method
bodies (mistral.ts lines 87-116 and 130-189) contain no call to
enforceRateLimit and never read or write `lastRequestTime`, so the POST
is issued immediately at `now` and the pacing state is unchanged; returns
(observed request start time, lastRequestTime after the call). -/
def chatCompletionStart (lastRequestTime now : ℤ) : ℤ × ℤ :=
  (now, lastRequestTime)

/-- The three-character opening/closing fence. -/
def fenceL : List Char := [btick, btick, btick]

/-- A well-formed fenced block as it occurs in a larger text: opening
fence, language tag, newline, inner content, closing fence. -/
def fenceBlock (tag content : List Char) : List Char :=
  fenceL ++ tag ++ '\n' :: content ++ fenceL

/-!
Concrete response-body fixtures.
-/

/-- A structurally complete chat response body whose `choices` array is
empty. -/
def emptyChoicesBody : Json :=
  .obj
    [ (str "id", .jstr (str "cmpl-1")),
      (str "object", .jstr (str "chat.completion")),
      (str "created", .num 1700000000),
      (str "model", .jstr (str "codestral-latest")),
      (str "choices", .arr []),
      (str "usage",
        .obj
          [ (str "prompt_tokens", .num 10),
            (str "completion_tokens", .num 0),
            (str "total_tokens", .num 10) ]) ]

/-- The CompletionResponse value `emptyChoicesBody` parses to. -/
def emptyChoicesResponse : CompletionResponse :=
  { id := str "cmpl-1"
    object := str "chat.completion"
    created := 1700000000
    model := str "codestral-latest"
    choices := []
    usage := { prompt_tokens := 10, completion_tokens := 0, total_tokens := 10 } }

/-- The instance newMistralAPI builds from the key " k1 ". -/
def sampleInstance : MistralAPIInstance :=
  { apiKey := str "k1"
    baseURL := MISTRAL_API_BASE
    authHeader := str "Bearer k1"
    contentTypeHeader := str "application/json"
    acceptHeader := str "application/json"
    timeout := 30000
    lastRequestTime := 0 }

/-- A response body with one well-formed choice but no `usage` field. -/
def missingUsageBody : Json :=
  .obj
    [ (str "id", .jstr (str "cmpl-2")),
      (str "object", .jstr (str "chat.completion")),
      (str "created", .num 1700000001),
      (str "model", .jstr (str "codestral-latest")),
      (str "choices",
        .arr
          [ .obj
              [ (str "index", .num 0),
                (str "message",
                  .obj
                    [ (str "role", .jstr (str "assistant")),
                      (str "content", .jstr (str "hello")) ]),
                (str "finish_reason", .jstr (str "stop")) ] ]) ]

/-!
Lemmas about the code-block scanner.
-/

example : extractCode (str "no code here") = str "no code here" := by decide

example :
    extractCode (str "before ```python\n x = 1 \n``` mid ```\ny = 2\n``` after") =
      str "x = 1\n\ny = 2" := by decide

example : extractCode (str "unclosed ```py\nstuff") = str "unclosed ```py\nstuff" := by
  decide

theorem dropFenceTag_length :
    ∀ s r : List Char, dropFenceTag s = some r → r.length < s.length := by
  intro s
  induction s with
  | nil => intro r h; simp [dropFenceTag] at h
  | cons c cs ih =>
    intro r h
    by_cases hc : c = '\n'
    · simp [dropFenceTag, hc] at h
      subst h
      simp
    · by_cases hw : isWordChar c
      · simp [dropFenceTag, hc, hw] at h
        have := ih r h
        simp
        omega
      · simp [dropFenceTag, hc, hw] at h

theorem splitAtClose_length :
    ∀ s co r : List Char, splitAtClose s = some (co, r) → r.length < s.length := by
  intro s
  induction s with
  | nil => intro co r h; simp [splitAtClose] at h
  | cons a t ih =>
    intro co r h
    by_cases hf : startsWithFence (a :: t)
    · simp [splitAtClose, hf] at h
      obtain ⟨-, h2⟩ := h
      subst h2
      simp
      omega
    · simp [splitAtClose, hf] at h
      cases heq : splitAtClose t with
      | none => rw [heq] at h; simp at h
      | some p =>
        obtain ⟨co', r'⟩ := p
        rw [heq] at h
        simp at h
        obtain ⟨-, h2⟩ := h
        subst h2
        have := ih co' r' heq
        simp
        omega

theorem tryOpenAt_length :
    ∀ s co r : List Char, tryOpenAt s = some (co, r) → r.length < s.length := by
  intro s co r h
  by_cases hf : startsWithFence s
  · simp [tryOpenAt, hf] at h
    cases heq : dropFenceTag (s.drop 3) with
    | none => rw [heq] at h; simp at h
    | some v =>
      rw [heq] at h
      simp at h
      have h1 := dropFenceTag_length _ _ heq
      have h2 := splitAtClose_length _ _ _ h
      have h3 : (s.drop 3).length = s.length - 3 := List.length_drop 3 s
      omega
  · simp [tryOpenAt, hf] at h

theorem scanBlocksF_fuel :
    ∀ n m : Nat, ∀ s : List Char,
      s.length ≤ n → s.length ≤ m → scanBlocksF n s = scanBlocksF m s := by
  intro n
  induction n with
  | zero =>
    intro m s h1 _
    have : s = [] := List.length_eq_zero.mp (Nat.le_zero.mp h1)
    subst this
    cases m <;> simp [scanBlocksF]
  | succ n ih =>
    intro m s h1 h2
    cases s with
    | nil => cases m <;> simp [scanBlocksF]
    | cons c cs =>
      cases m with
      | zero => simp at h2
      | succ m' =>
        simp only [scanBlocksF]
        cases heq : tryOpenAt (c :: cs) with
        | none =>
          simp at h1 h2
          exact ih m' cs (by omega) (by omega)
        | some p =>
          obtain ⟨co, rest⟩ := p
          have hl := tryOpenAt_length _ _ _ heq
          simp at h1 h2 hl
          exact congrArg (co :: ·) (ih m' rest (by omega) (by omega))

theorem scanBlocks_cons_none {c : Char} {cs : List Char}
    (h : tryOpenAt (c :: cs) = none) : scanBlocks (c :: cs) = scanBlocks cs := by
  simp only [scanBlocks, List.length_cons, scanBlocksF, h]

theorem scanBlocks_match {s co rest : List Char} (hs : s ≠ [])
    (h : tryOpenAt s = some (co, rest)) :
    scanBlocks s = co :: scanBlocks rest := by
  obtain ⟨c, cs, rfl⟩ := List.exists_cons_of_ne_nil hs
  have hl := tryOpenAt_length _ _ _ h
  simp only [scanBlocks, List.length_cons, scanBlocksF, h]
  exact congrArg (co :: ·)
    (scanBlocksF_fuel cs.length rest.length rest
      (by simp at hl; omega) (le_refl _))

theorem startsWithFence_cons_ne {c : Char} (t : List Char) (h : c ≠ btick) :
    startsWithFence (c :: t) = false := by
  cases t with
  | nil => rfl
  | cons b u =>
    cases u with
    | nil => rfl
    | cons d v => simp [startsWithFence, h]

theorem tryOpenAt_cons_ne {c : Char} (cs : List Char) (h : c ≠ btick) :
    tryOpenAt (c :: cs) = none := by
  simp [tryOpenAt, startsWithFence_cons_ne cs h]

theorem scanBlocks_append_no_btick :
    ∀ p t : List Char, (∀ c ∈ p, c ≠ btick) →
      scanBlocks (p ++ t) = scanBlocks t := by
  intro p
  induction p with
  | nil => intro t _; rfl
  | cons c p' ih =>
    intro t hp
    rw [List.cons_append,
      scanBlocks_cons_none (tryOpenAt_cons_ne _ (hp c (List.mem_cons_self c p')))]
    exact ih t (fun d hd => hp d (List.mem_cons_of_mem c hd))

theorem scanBlocks_nil_of_no_btick {t : List Char}
    (h : ∀ c ∈ t, c ≠ btick) : scanBlocks t = [] := by
  have := scanBlocks_append_no_btick t [] h
  simpa using this

theorem word_ne_newline {c : Char} (h : isWordChar c = true) : c ≠ '\n' := by
  intro he
  subst he
  exact absurd h (by decide)

theorem word_ne_btick {c : Char} (h : isWordChar c = true) : c ≠ btick := by
  intro he
  subst he
  exact absurd h (by decide)

theorem dropFenceTag_tag :
    ∀ tag rest : List Char, (∀ c ∈ tag, isWordChar c = true) →
      dropFenceTag (tag ++ '\n' :: rest) = some rest := by
  intro tag
  induction tag with
  | nil => intro rest _; simp [dropFenceTag]
  | cons c tg ih =>
    intro rest h
    have hw := h c (List.mem_cons_self c tg)
    rw [List.cons_append]
    simp [dropFenceTag, word_ne_newline hw, hw]
    exact ih rest (fun d hd => h d (List.mem_cons_of_mem c hd))

theorem splitAtClose_exact :
    ∀ A rest : List Char, (∀ c ∈ A, c ≠ btick) →
      splitAtClose (A ++ fenceL ++ rest) = some (A, rest) := by
  intro A
  induction A with
  | nil =>
    intro rest _
    show splitAtClose (btick :: btick :: btick :: rest) = some ([], rest)
    simp [splitAtClose, startsWithFence]
  | cons a A' ih =>
    intro rest h
    have ha := h a (List.mem_cons_self a A')
    rw [List.cons_append]
    simp only [splitAtClose, startsWithFence_cons_ne _ ha, Bool.false_eq_true,
      if_false, List.append_eq]
    rw [ih rest (fun d hd => h d (List.mem_cons_of_mem a hd))]

theorem tryOpenAt_block :
    ∀ tag A rest : List Char,
      (∀ c ∈ tag, isWordChar c = true) → (∀ c ∈ A, c ≠ btick) →
      tryOpenAt (fenceBlock tag A ++ rest) = some (A, rest) := by
  intro tag A rest htag hA
  have hshape : fenceBlock tag A ++ rest =
      btick :: btick :: btick :: (tag ++ '\n' :: (A ++ fenceL ++ rest)) := by
    simp [fenceBlock, fenceL, List.append_assoc]
  rw [hshape]
  have hf : startsWithFence
      (btick :: btick :: btick :: (tag ++ '\n' :: (A ++ fenceL ++ rest))) = true := by
    simp [startsWithFence]
  simp only [tryOpenAt, hf, if_true, List.drop_succ_cons, List.drop_zero]
  rw [dropFenceTag_tag tag _ htag]
  show splitAtClose (A ++ fenceL ++ rest) = some (A, rest)
  exact splitAtClose_exact A rest hA

theorem scanBlocks_block :
    ∀ tag A rest : List Char,
      (∀ c ∈ tag, isWordChar c = true) → (∀ c ∈ A, c ≠ btick) →
      scanBlocks (fenceBlock tag A ++ rest) = A :: scanBlocks rest := by
  intro tag A rest htag hA
  refine scanBlocks_match ?_ (tryOpenAt_block tag A rest htag hA)
  simp [fenceBlock, fenceL]

theorem scanBlocks_block_nil {tag A : List Char}
    (htag : ∀ c ∈ tag, isWordChar c = true) (hA : ∀ c ∈ A, c ≠ btick) :
    scanBlocks (fenceBlock tag A) = [A] := by
  have := scanBlocks_block tag A [] htag hA
  simpa using this

/-!
Decompositions of the prompt builder's user content into fenced blocks.
-/

theorem userContent_fim_none (code : List Char) (lang : Option (List Char)) :
    userContent code lang .fim none =
      (str "Here is the" ++ langStr lang ++ str " code:\n\n") ++
        fenceBlock (fenceTag lang) (code ++ ['\n']) := by
  have h2 : str " code:\n\n```" = str " code:\n\n" ++ fenceL := by decide
  have h3 : str "\n```" = '\n' :: fenceL := by decide
  simp only [userContent, h2, h3, fenceBlock]
  simp [List.append_assoc]

theorem userContent_fim_some (code : List Char) (lang : Option (List Char))
    (s : List Char) (hs : s ≠ []) :
    userContent code lang .fim (some s) =
      (str "Here is the" ++ langStr lang ++ str " code:\n\n") ++
        (fenceBlock (fenceTag lang) (code ++ ['\n']) ++
          (str "\n\nThe code should end with:\n\n" ++
            fenceBlock (fenceTag lang) (s ++ ['\n']))) := by
  have h2 : str " code:\n\n```" = str " code:\n\n" ++ fenceL := by decide
  have h3 : str "\n```" = '\n' :: fenceL := by decide
  have h4 : str "\n\nThe code should end with:\n\n```" =
      str "\n\nThe code should end with:\n\n" ++ fenceL := by decide
  simp only [userContent, if_neg hs, h2, h3, h4, fenceBlock]
  simp [List.append_assoc]

theorem fenceTag_word {lang : Option (List Char)}
    (hl : ∀ l, lang = some l → ∀ c ∈ l, isWordChar c = true) :
    ∀ c ∈ fenceTag lang, isWordChar c = true := by
  intro c hc
  cases lang with
  | none => simp [fenceTag] at hc
  | some l =>
    by_cases he : l = []
    · simp [fenceTag, he] at hc
    · simp [fenceTag, he] at hc
      exact hl l rfl c hc

theorem promptPrefix_no_btick {lang : Option (List Char)}
    (hl : ∀ l, lang = some l → ∀ c ∈ l, isWordChar c = true) :
    ∀ c ∈ str "Here is the" ++ langStr lang ++ str " code:\n\n", c ≠ btick := by
  intro c hc
  rcases List.mem_append.mp hc with hc | hc
  · rcases List.mem_append.mp hc with hc | hc
    · have hall : ∀ d ∈ str "Here is the", d ≠ btick := by decide
      exact hall c hc
    · cases lang with
      | none => simp [langStr] at hc
      | some l =>
        by_cases he : l = []
        · simp [langStr, he] at hc
        · simp [langStr, he] at hc
          rcases hc with hc | hc
          · subst hc; decide
          · exact word_ne_btick (hl l rfl c hc)
  · have hall : ∀ d ∈ str " code:\n\n", d ≠ btick := by decide
    exact hall c hc

theorem connective_no_btick :
    ∀ c ∈ str "\n\nThe code should end with:\n\n", c ≠ btick := by decide

theorem content_newline_no_btick {code : List Char}
    (h : ∀ c ∈ code, c ≠ btick) : ∀ c ∈ code ++ ['\n'], c ≠ btick := by
  intro c hc
  rcases List.mem_append.mp hc with hc | hc
  · exact h c hc
  · simp at hc; subst hc; decide

/-!
Claim theorems.
-/

/-- C1: the claim states that for two back-to-back outbound calls the
second call's observed start time is at least 100 ms after the first's,
the client suspending until the minimum interval has elapsed and then
updating last_request_time. The request paths never invoke
enforceRateLimit: starting from the initial pacing state (lastRequestTime
= 0), two calls both issued at wall-clock time 0 both start at time 0 — a
gap of 0 ms, not ≥ 100 — and the pacing state is never updated; the
enforceRateLimit helper itself, had it been invoked, would have suspended
the second call until time 100 and stamped lastRequestTime. -/
theorem C1_pacing_never_applied :
    (chatCompletionStart 0 0).1 = 0 ∧
    (chatCompletionStart (chatCompletionStart 0 0).2 0).1 = 0 ∧
    (chatCompletionStart (chatCompletionStart 0 0).2 0).2 = 0 ∧
    ¬ (chatCompletionStart 0 0).1 + minRequestInterval ≤
        (chatCompletionStart (chatCompletionStart 0 0).2 0).1 ∧
    (enforceRateLimit 0 0).1 = 100 ∧ (enforceRateLimit 0 0).2 = 100 := by
  decide

/-- C2 counterexample: a transport failure with HTTP status 503 — a 5xx
status — is classified as an unclassified API error, not as the server
error the claim requires for every 5xx. -/
theorem C2_counterexample_503 :
    chatCompletionResult
        (.httpError (some 503) none (str "Service Unavailable") []) =
      .error (.unclassified (some 503) (str "Service Unavailable")) ∧
    ¬ chatCompletionResult
        (.httpError (some 503) none (str "Service Unavailable") []) =
      .error .serverError := by
  refine ⟨rfl, ?_⟩
  intro h
  rw [show chatCompletionResult
      (.httpError (some 503) none (str "Service Unavailable") []) =
      .error (.unclassified (some 503) (str "Service Unavailable")) from rfl] at h
  simp at h

/-- C2 amended: transport failures are classified by HTTP status — 401
yields AuthError, 429 yields RateLimitError, exactly 500 yields
ServerError, and every other status (including other 5xx statuses such as
502 or 503, and an absent status) yields UnclassifiedApiError carrying
the status and the remote-supplied message when present and non-empty,
else the transport's own message; fimCompletion's unclassified message
additionally appends a dump of the response data. -/
theorem C2_status_classification :
    ∀ (status : Option ℕ) (remoteMsg : Option (List Char))
      (transportMsg dataDump : List Char),
      classifyChatError (some 401) remoteMsg transportMsg = .authError ∧
      classifyFimError (some 401) remoteMsg transportMsg dataDump = .authError ∧
      classifyChatError (some 429) remoteMsg transportMsg = .rateLimitError ∧
      classifyFimError (some 429) remoteMsg transportMsg dataDump =
        .rateLimitError ∧
      classifyChatError (some 500) remoteMsg transportMsg = .serverError ∧
      classifyFimError (some 500) remoteMsg transportMsg dataDump =
        .serverError ∧
      (status ≠ some 401 → status ≠ some 429 → status ≠ some 500 →
        classifyChatError status remoteMsg transportMsg =
          .unclassified status (coalesceMsg remoteMsg transportMsg) ∧
        classifyFimError status remoteMsg transportMsg dataDump =
          .unclassified status
            (coalesceMsg remoteMsg transportMsg ++ str "\nResponse: " ++
              dataDump)) := by
  intro status remoteMsg transportMsg dataDump
  refine ⟨rfl, rfl, rfl, rfl, rfl, rfl, ?_⟩
  intro h1 h2 h3
  exact ⟨by simp [classifyChatError, h1, h2, h3],
         by simp [classifyFimError, h1, h2, h3]⟩

/-- Witness for C2_status_classification at concrete statuses. -/
theorem C2_status_classification_witness :
    classifyChatError (some 503) none (str "Service Unavailable") =
      .unclassified (some 503) (str "Service Unavailable") ∧
    classifyChatError (some 401) none (str "x") = .authError := by
  refine ⟨?_, ?_⟩
  · exact ((C2_status_classification (some 503) none
      (str "Service Unavailable") []).2.2.2.2.2.2
        (by decide) (by decide) (by decide)).1
  · exact (C2_status_classification (some 0) none (str "x") []).1

/-- C3 counterexample: a structurally complete body whose choices array
is empty passes CompletionResponseSchema validation, contradicting the
claim that a zero-choices body does not validate. -/
theorem C3_counterexample_empty_choices_validates :
    CompletionResponseSchema emptyChoicesBody = some emptyChoicesResponse ∧
    emptyChoicesResponse.choices = [] ∧
    (CompletionResponseSchema emptyChoicesBody).isSome = true := by
  exact ⟨rfl, rfl, rfl⟩

/-- C3 amended: the schema does not require a non-empty choices sequence
— a zero-choices body validates and is returned unchanged by
chatCompletion/fimCompletion; the zero-choices case is instead rejected
downstream by formatResponse. -/
theorem C3_validation_and_empty_guard :
    (∀ (body : Json) (r : CompletionResponse),
      CompletionResponseSchema body = some r →
        chatCompletionResult (.success body) = .ok r ∧
        fimCompletionResult (.success body) = .ok r) ∧
    (∀ r : CompletionResponse, r.choices = [] →
      formatResponse r = .error (str "Invalid completion response")) := by
  constructor
  · intro body r h
    exact ⟨by simp [chatCompletionResult, h], by simp [fimCompletionResult, h]⟩
  · intro r h
    simp [formatResponse, h]

/-- Witness for C3_validation_and_empty_guard at the empty-choices body. -/
theorem C3_validation_and_empty_guard_witness :
    chatCompletionResult (.success emptyChoicesBody) =
      .ok emptyChoicesResponse ∧
    formatResponse emptyChoicesResponse =
      .error (str "Invalid completion response") := by
  exact ⟨(C3_validation_and_empty_guard.1 emptyChoicesBody
            emptyChoicesResponse rfl).1,
         C3_validation_and_empty_guard.2 emptyChoicesResponse rfl⟩

/-- C4: every fim request body carries the primary (non-mamba) model
identifier regardless of the options supplied — in particular regardless
of a caller-supplied model entry, which fimCompletion never reads — and
temperature defaults to 0 when the caller supplies none. -/
theorem C4_fim_forces_primary_model :
    ∀ (prompt : List Char) (opts : FimOptions),
      (fimRequestBody prompt opts).model = MISTRAL_MODELS_CODESTRAL ∧
      (fimRequestBody prompt opts).model ≠ MISTRAL_MODELS_CODESTRAL_MAMBA ∧
      (opts.temperature = none → (fimRequestBody prompt opts).temperature = 0) := by
  intro prompt opts
  refine ⟨rfl, ?_, ?_⟩
  · show MISTRAL_MODELS_CODESTRAL ≠ MISTRAL_MODELS_CODESTRAL_MAMBA
    decide
  · intro h
    simp [fimRequestBody, h]

/-- Witness for C4_fim_forces_primary_model: even with a mamba model
option supplied and no temperature, the body carries the primary model
and temperature 0. -/
theorem C4_fim_forces_primary_model_witness :
    (fimRequestBody (str "def f(")
        { model := some MISTRAL_MODELS_CODESTRAL_MAMBA }).model =
      MISTRAL_MODELS_CODESTRAL ∧
    (fimRequestBody (str "def f(")
        { model := some MISTRAL_MODELS_CODESTRAL_MAMBA }).temperature = 0 := by
  exact ⟨(C4_fim_forces_primary_model (str "def f(") _).1,
         (C4_fim_forces_primary_model (str "def f(") _).2.2 rfl⟩

/-- C5: for a text containing two fenced blocks with inner contents A and
B (word-character language tags, no stray backticks outside the fences),
extractCode returns trim A, a blank line, then trim B — block order of
first appearance; and a text with no fenced block (no backtick at all) is
returned unchanged. -/
theorem C5_extract_code_blocks :
    (∀ pre tag A mid tag2 B post : List Char,
      (∀ c ∈ pre, c ≠ btick) → (∀ c ∈ tag, isWordChar c = true) →
      (∀ c ∈ A, c ≠ btick) → (∀ c ∈ mid, c ≠ btick) →
      (∀ c ∈ tag2, isWordChar c = true) → (∀ c ∈ B, c ≠ btick) →
      (∀ c ∈ post, c ≠ btick) →
      extractCode
          (pre ++ (fenceBlock tag A ++ (mid ++ (fenceBlock tag2 B ++ post)))) =
        trim A ++ '\n' :: '\n' :: trim B) ∧
    (∀ t : List Char, (∀ c ∈ t, c ≠ btick) → extractCode t = t) := by
  constructor
  · intro pre tag A mid tag2 B post hpre htag hA hmid htag2 hB hpost
    have hscan :
        scanBlocks
            (pre ++ (fenceBlock tag A ++ (mid ++ (fenceBlock tag2 B ++ post)))) =
          [A, B] := by
      rw [scanBlocks_append_no_btick pre _ hpre,
          scanBlocks_block tag A _ htag hA,
          scanBlocks_append_no_btick mid _ hmid,
          scanBlocks_block tag2 B post htag2 hB,
          scanBlocks_nil_of_no_btick hpost]
    simp [extractCode, hscan, joinBlankLine]
  · intro t ht
    simp [extractCode, scanBlocks_nil_of_no_btick ht]

/-- Witness for C5_extract_code_blocks on a concrete two-block response. -/
theorem C5_extract_code_blocks_witness :
    extractCode
        (str "Sure: " ++ (fenceBlock (str "py") (str " a = 1 \n") ++
          (str " and " ++ (fenceBlock [] (str "b = 2\n") ++ str ".")))) =
      str "a = 1" ++ '\n' :: '\n' :: str "b = 2" ∧
    extractCode (str "no code here") = str "no code here" := by
  constructor
  · have h := C5_extract_code_blocks.1 (str "Sure: ") (str "py")
      (str " a = 1 \n") (str " and ") [] (str "b = 2\n") (str ".")
      (by decide) (by decide) (by decide) (by decide) (by decide) (by decide)
      (by decide)
    rw [h]
    decide
  · exact C5_extract_code_blocks.2 (str "no code here") (by decide)

/-- C6: for every task kind and every code, language and suffix input,
createPrompt returns exactly two messages, system role first with the
fixed per-task persona prompt, user role second; and when language is
absent the fence tag in the user content is empty — the opening fence is
immediately followed by the newline and the code, not by a
null-stringified value. -/
theorem C6_two_messages :
    ∀ (code : List Char) (lang : Option (List Char)) (task : Task)
      (suffix : Option (List Char)),
      (createPrompt code lang task suffix).length = 2 ∧
      (createPrompt code lang task suffix).map Message.role =
        [str "system", str "user"] ∧
      (createPrompt code lang task suffix).head? =
        some ⟨str "system", systemPrompt task⟩ ∧
      ∃ rest, userContent code none task suffix =
        str "Here is the code:\n\n```\n" ++ code ++ rest := by
  intro code lang task suffix
  refine ⟨rfl, rfl, rfl, ?_⟩
  have hP : str "Here is the code:\n\n```\n" =
      str "Here is the" ++ str " code:\n\n```" ++ ['\n'] := by decide
  cases task with
  | fim =>
    cases suffix with
    | none =>
      exact ⟨str "\n```",
        by simp [userContent, langStr, fenceTag, hP, List.append_assoc]⟩
    | some s =>
      by_cases hs : s = []
      · exact ⟨str "\n```",
          by simp [userContent, langStr, fenceTag, hs, hP, List.append_assoc]⟩
      · exact ⟨str "\n```" ++ str "\n\nThe code should end with:\n\n```" ++
            '\n' :: s ++ str "\n```",
          by simp [userContent, langStr, fenceTag, hs, hP, List.append_assoc]⟩
  | complete =>
    exact ⟨str "\n```",
      by cases suffix <;>
        simp [userContent, langStr, fenceTag, hP, List.append_assoc]⟩
  | fix =>
    exact ⟨str "\n```",
      by cases suffix <;>
        simp [userContent, langStr, fenceTag, hP, List.append_assoc]⟩
  | test =>
    exact ⟨str "\n```",
      by cases suffix <;>
        simp [userContent, langStr, fenceTag, hP, List.append_assoc]⟩

/-- C7: for the fim task with a non-empty suffix (word-character language
tag, no backticks in code or suffix), the user message contains exactly
two fenced blocks — the code block first, the suffix block second,
introduced by the connective text "The code should end with:" — and with
no suffix exactly one fenced block. -/
theorem C7_fim_fence_count :
    ∀ (code : List Char) (lang : Option (List Char)) (s : List Char),
      (∀ l, lang = some l → ∀ c ∈ l, isWordChar c = true) →
      (∀ c ∈ code, c ≠ btick) → (∀ c ∈ s, c ≠ btick) → s ≠ [] →
      scanBlocks (userContent code lang .fim (some s)) =
        [code ++ ['\n'], s ++ ['\n']] ∧
      (scanBlocks (userContent code lang .fim (some s))).length = 2 ∧
      (∃ p q, userContent code lang .fim (some s) =
        p ++ str "The code should end with:" ++ q) ∧
      scanBlocks (userContent code lang .fim none) = [code ++ ['\n']] ∧
      (scanBlocks (userContent code lang .fim none)).length = 1 := by
  intro code lang s hl hcode hs hne
  have htag := fenceTag_word hl
  have hpre := promptPrefix_no_btick hl
  have hc1 := content_newline_no_btick hcode
  have hc2 := content_newline_no_btick hs
  have hsome : scanBlocks (userContent code lang .fim (some s)) =
      [code ++ ['\n'], s ++ ['\n']] := by
    rw [userContent_fim_some code lang s hne,
        scanBlocks_append_no_btick _ _ hpre,
        scanBlocks_block _ _ _ htag hc1,
        scanBlocks_append_no_btick _ _ connective_no_btick,
        scanBlocks_block_nil htag hc2]
  have hnone : scanBlocks (userContent code lang .fim none) =
      [code ++ ['\n']] := by
    rw [userContent_fim_none code lang,
        scanBlocks_append_no_btick _ _ hpre,
        scanBlocks_block_nil htag hc1]
  refine ⟨hsome, by rw [hsome]; rfl, ?_, hnone, by rw [hnone]; rfl⟩
  refine ⟨(str "Here is the" ++ langStr lang ++ str " code:\n\n") ++
      (fenceBlock (fenceTag lang) (code ++ ['\n']) ++ str "\n\n"),
    str "\n\n" ++ fenceBlock (fenceTag lang) (s ++ ['\n']), ?_⟩
  rw [userContent_fim_some code lang s hne]
  have hsplit : str "\n\nThe code should end with:\n\n" =
      str "\n\n" ++ str "The code should end with:" ++ str "\n\n" := by decide
  rw [hsplit]
  simp [List.append_assoc]

/-- Witness for C7_fim_fence_count on a concrete fim prompt. -/
theorem C7_fim_fence_count_witness :
    scanBlocks
        (userContent (str "x = 1") (some (str "py")) .fim
          (some (str "return x"))) =
      [str "x = 1" ++ ['\n'], str "return x" ++ ['\n']] ∧
    scanBlocks (userContent (str "x = 1") (some (str "py")) .fim none) =
      [str "x = 1" ++ ['\n']] := by
  have h := C7_fim_fence_count (str "x = 1") (some (str "py")) (str "return x")
    (by intro l hl; cases hl; decide) (by decide) (by decide) (by decide)
  exact ⟨h.1, h.2.2.2.1⟩

/-- C8: construction fails with the config error exactly when the
credential is empty or all-whitespace after trimming; on success the
stored credential is the trimmed input, the transport carries the
bearer-auth header derived from it, the JSON content headers, the base
endpoint and a fixed 30000 ms timeout. -/
theorem C8_constructor_contract :
    ∀ apiKey : List Char,
      (newMistralAPI apiKey = .error .configError ↔ trim apiKey = []) ∧
      (∀ inst, newMistralAPI apiKey = .ok inst →
        inst.apiKey = trim apiKey ∧
        inst.authHeader = str "Bearer " ++ trim apiKey ∧
        inst.baseURL = MISTRAL_API_BASE ∧
        inst.contentTypeHeader = str "application/json" ∧
        inst.acceptHeader = str "application/json" ∧
        inst.timeout = 30000) := by
  intro apiKey
  have hkey : (apiKey = [] ∨ trim apiKey = []) ↔ trim apiKey = [] := by
    constructor
    · rintro (h | h)
      · subst h; rfl
      · exact h
    · exact Or.inr
  by_cases h : apiKey = [] ∨ trim apiKey = []
  · refine ⟨⟨fun _ => hkey.mp h, fun _ => by simp only [newMistralAPI, if_pos h]⟩, ?_⟩
    intro inst hin
    simp only [newMistralAPI, if_pos h] at hin
    exact Except.noConfusion hin
  · have htr : ¬ trim apiKey = [] := fun hh => h (Or.inr hh)
    refine ⟨⟨fun he => ?_, fun hh => absurd hh htr⟩, ?_⟩
    · simp only [newMistralAPI, if_neg h] at he
      exact Except.noConfusion he
    · intro inst hin
      simp only [newMistralAPI, if_neg h] at hin
      injection hin with hin
      subst hin
      exact ⟨rfl, rfl, rfl, rfl, rfl, rfl⟩

/-- Witness for C8_constructor_contract: a padded key is trimmed into the
stored credential and headers, and an all-whitespace key is rejected. -/
theorem C8_constructor_contract_witness :
    sampleInstance.apiKey = trim (str " k1 ") ∧
    sampleInstance.authHeader = str "Bearer " ++ trim (str " k1 ") ∧
    sampleInstance.timeout = 30000 ∧
    newMistralAPI (str "   ") = .error .configError := by
  have h := (C8_constructor_contract (str " k1 ")).2 sampleInstance rfl
  exact ⟨h.1, h.2.1, h.2.2.2.2.2,
         (C8_constructor_contract (str "   ")).1.mpr (by decide)⟩

/-- C9: a raw response body that is structurally invalid against
CompletionResponseSchema makes chatCompletion (and fimCompletion) fail
with the schema error, and every successfully returned value is exactly a
value the schema validated — never a partially-populated one. -/
theorem C9_schema_error_on_invalid_body :
    ∀ body : Json,
      (CompletionResponseSchema body = none →
        chatCompletionResult (.success body) = .error .schemaError ∧
        fimCompletionResult (.success body) = .error .schemaError) ∧
      (∀ r, chatCompletionResult (.success body) = .ok r →
        CompletionResponseSchema body = some r) := by
  intro body
  constructor
  · intro h
    exact ⟨by simp [chatCompletionResult, h], by simp [fimCompletionResult, h]⟩
  · intro r h
    cases heq : CompletionResponseSchema body with
    | none => simp [chatCompletionResult, heq] at h
    | some r' =>
      simp [chatCompletionResult, heq] at h
      rw [h]

/-- Witness for C9_schema_error_on_invalid_body: a body missing `usage`
fails with the schema error. -/
theorem C9_schema_error_witness :
    chatCompletionResult (.success missingUsageBody) = .error .schemaError ∧
    fimCompletionResult (.success missingUsageBody) = .error .schemaError := by
  exact (C9_schema_error_on_invalid_body missingUsageBody).1 rfl

/-- C10: once an instance exists in the module-level slot, every later
getMistralAPI call returns that existing instance — for every credential
argument, including an empty one — without constructing another and
without a config error; a whole sequence of later calls all return it. -/
theorem C10_singleton_reuse :
    ∀ (inst : MistralAPIInstance) (apiKey : List Char)
      (keys : List (List Char)),
      getMistralAPI (some inst) apiKey = (.ok inst, some inst) ∧
      getMistralAPIRun (some inst) keys = keys.map (fun _ => .ok inst) := by
  intro inst apiKey keys
  refine ⟨rfl, ?_⟩
  induction keys with
  | nil => rfl
  | cons k ks ih => simp [getMistralAPIRun, getMistralAPI, ih]

end Codestral
